import Mathlib

/-!
Formal model of the libOS bit/byte packing library (`bits.h`, current
version with the explicit big-endian array codec and byte-reversal
helpers).

Machine integers are modelled as `Nat` with explicit `% 2 ^ w` where the C
code casts or stores into a `w`-bit type.  The C `~` operator acts on the
promoted 32-bit `int`, modelled by `bitnot` (xor against the 32-bit
all-ones word).  Byte buffers are `List Nat` whose entries are the bytes;
a `uint8_t` read at offset `i` is `data.getD i 0` and a store is
`List.set` (the values stored by the codec are always `< 256` because the
code masks them with `0xFF`).
-/

namespace LibOS

/-- `GET_MASK(value, mask)`: `(value) & (mask)`. -/
def GET_MASK (value mask : Nat) : Nat := value &&& mask

/-- `HAS_MASK(value, mask)`: `(GET_MASK(value, mask) == (mask)) && ((mask) != 0)`. -/
def HAS_MASK (value mask : Nat) : Bool := (GET_MASK value mask == mask) && (mask != 0)

/-- `ONLY_MASK(value, mask)`: `(GET_MASK(value, mask) == (mask)) && (((value) & (mask)) == (value))`. -/
def ONLY_MASK (value mask : Nat) : Bool :=
  (GET_MASK value mask == mask) && ((value &&& mask) == value)

/-- `HAS_FLAG(value, flag_pos)`: `HAS_MASK(value, 1 << flag_pos)`. -/
def HAS_FLAG (value flag_pos : Nat) : Bool := HAS_MASK value (1 <<< flag_pos)

/-- The C `~` on the promoted 32-bit `int` operand: xor with the all-ones word. -/
def bitnot (m : Nat) : Nat := (2 ^ 32 - 1) ^^^ (m % 2 ^ 32)

/-- `SET_MASK(value, mask)`: `value = ((value) & ~(mask)) | (mask)`, stored back
into the `w`-bit variable `value`. -/
def SET_MASK (w value mask : Nat) : Nat := ((value &&& bitnot mask) ||| mask) % 2 ^ w

/-- `CLEAR_MASK(value, mask)`: `value = ((value) & ~(mask))`, stored back into the
`w`-bit variable `value`. -/
def CLEAR_MASK (w value mask : Nat) : Nat := (value &&& bitnot mask) % 2 ^ w

/-- `SET_FLAG(value, flag_pos)`: `SET_MASK(value, (1 << flag_pos))`. -/
def SET_FLAG (w value flag_pos : Nat) : Nat := SET_MASK w value (1 <<< flag_pos)

/-- `CLEAR_FLAG(value, flag_pos)`: `CLEAR_MASK(value, (1 << flag_pos))`. -/
def CLEAR_FLAG (w value flag_pos : Nat) : Nat := CLEAR_MASK w value (1 <<< flag_pos)

/-- `SET_MASKED_VALUE(value, set_mask, set_value)`:
`value = (((value) & (~set_mask)) | ((set_value) & (set_mask)))`, stored back
into the `w`-bit variable `value`. -/
def SET_MASKED_VALUE (w value set_mask set_value : Nat) : Nat :=
  ((value &&& bitnot set_mask) ||| (set_value &&& set_mask)) % 2 ^ w

/-- `COMBINE_BYTES_16(higher, lower)`:
`((uint16_t)(lower)) | (((uint16_t)(higher)) << 8)` (value of the C expression,
each cast modelled as `% 2 ^ 16`). -/
def COMBINE_BYTES_16 (higher lower : Nat) : Nat :=
  (lower % 2 ^ 16) ||| ((higher % 2 ^ 16) <<< 8)

/-- `COMBINE_BYTES_32(higher, higher_middle, lower_middle, lower)`:
`(uint32_t)COMBINE_BYTES_16(lower_middle, lower) |
 ((uint32_t)COMBINE_BYTES_16(higher, higher_middle) << 16)`; the shift is
performed in 32-bit unsigned arithmetic. -/
def COMBINE_BYTES_32 (higher higher_middle lower_middle lower : Nat) : Nat :=
  (COMBINE_BYTES_16 lower_middle lower % 2 ^ 32) |||
    (((COMBINE_BYTES_16 higher higher_middle % 2 ^ 32) <<< 16) % 2 ^ 32)

/-- `SET_16_IN_ARRAY(data, value, byte_offset)`:
`uint16_t __val = (value);` then stores `(__val >> 8) & 0xFF` at
`byte_offset + 0` and `(__val >> 0) & 0xFF` at `byte_offset + 1`. -/
def SET_16_IN_ARRAY (data : List Nat) (value byte_offset : Nat) : List Nat :=
  let v := value % 2 ^ 16
  (data.set (byte_offset + 0) ((v >>> 8) &&& 0xFF)).set (byte_offset + 1) ((v >>> 0) &&& 0xFF)

/-- `SET_32_IN_ARRAY(data, value, byte_offset)`:
`uint32_t __val = (value);` then stores the four bytes `(__val >> 24) & 0xFF`,
`(__val >> 16) & 0xFF`, `(__val >> 8) & 0xFF`, `(__val >> 0) & 0xFF` at
offsets `byte_offset + 0 .. byte_offset + 3`. -/
def SET_32_IN_ARRAY (data : List Nat) (value byte_offset : Nat) : List Nat :=
  let v := value % 2 ^ 32
  (((data.set (byte_offset + 0) ((v >>> 24) &&& 0xFF)).set
        (byte_offset + 1) ((v >>> 16) &&& 0xFF)).set
      (byte_offset + 2) ((v >>> 8) &&& 0xFF)).set
    (byte_offset + 3) ((v >>> 0) &&& 0xFF)

/-- `GET_16_IN_ARRAY(data, byte_offset)`:
`(uint16_t)(((uint16_t)data[byte_offset+0] << 8) | ((uint16_t)data[byte_offset+1] << 0))`. -/
def GET_16_IN_ARRAY (data : List Nat) (byte_offset : Nat) : Nat :=
  (((data.getD (byte_offset + 0) 0 % 2 ^ 16) <<< 8) |||
      ((data.getD (byte_offset + 1) 0 % 2 ^ 16) <<< 0)) % 2 ^ 16

/-- `GET_32_IN_ARRAY(data, byte_offset)`: the four bytes at
`byte_offset + 0 .. byte_offset + 3` shifted into place, most significant
byte at the lowest offset. -/
def GET_32_IN_ARRAY (data : List Nat) (byte_offset : Nat) : Nat :=
  (((data.getD (byte_offset + 0) 0 % 2 ^ 32) <<< 24) |||
      ((data.getD (byte_offset + 1) 0 % 2 ^ 32) <<< 16) |||
      ((data.getD (byte_offset + 2) 0 % 2 ^ 32) <<< 8) |||
      ((data.getD (byte_offset + 3) 0 % 2 ^ 32) <<< 0)) % 2 ^ 32

/-- `REVERSE_BYTES_IN_ARRAY_16BIT(data, byte_offset)`:
`__temp = data[off+0]; data[off+0] = data[off+1]; data[off+1] = __temp;`. -/
def REVERSE_BYTES_IN_ARRAY_16BIT (data : List Nat) (byte_offset : Nat) : List Nat :=
  let temp := data.getD (byte_offset + 0) 0
  let d1 := data.set (byte_offset + 0) (data.getD (byte_offset + 1) 0)
  d1.set (byte_offset + 1) temp

/-- `REVERSE_BYTES_IN_ARRAY_32BIT(data, byte_offset)`: swaps the bytes at
offsets `+0`/`+3` and then the bytes at offsets `+1`/`+2`, sequentially as in
the source. -/
def REVERSE_BYTES_IN_ARRAY_32BIT (data : List Nat) (byte_offset : Nat) : List Nat :=
  let temp0 := data.getD (byte_offset + 0) 0
  let d1 := data.set (byte_offset + 0) (data.getD (byte_offset + 3) 0)
  let d2 := d1.set (byte_offset + 3) temp0
  let temp1 := d2.getD (byte_offset + 1) 0
  let d3 := d2.set (byte_offset + 1) (d2.getD (byte_offset + 2) 0)
  d3.set (byte_offset + 2) temp1

/-! ### Helper lemmas -/

lemma and_255 (x : Nat) : x &&& 0xFF = x % 256 := by
  simpa using Nat.and_pow_two_sub_one_eq_mod x 8

lemma getD_set_self_of_lt (l : List Nat) (i a : Nat) (h : i < l.length) :
    (l.set i a).getD i 0 = a := by
  simp [List.getD_eq_getElem?_getD, List.getElem?_set_self h]

lemma getD_set_ne (l : List Nat) {i j : Nat} (a : Nat) (h : i ≠ j) :
    (l.set i a).getD j 0 = l.getD j 0 := by
  simp [List.getD_eq_getElem?_getD, List.getElem?_set_ne h]

lemma shiftLeft_or_eq_add (a : Nat) {b k : Nat} (hb : b < 2 ^ k) :
    (a <<< k) ||| b = 2 ^ k * a + b := by
  apply Nat.eq_of_testBit_eq
  intro i
  rw [Nat.testBit_or, Nat.testBit_mul_pow_two_add a hb i, Nat.shiftLeft_eq]
  have ha : a * 2 ^ k = 2 ^ k * a + 0 := by ring
  rw [ha, Nat.testBit_mul_pow_two_add a (Nat.pos_pow_of_pos k (by decide)) i]
  by_cases h : i < k
  · have hbi : b < 2 ^ i → b.testBit i = false := Nat.testBit_lt_two_pow
    simp [h]
  · have : b.testBit i = false :=
      Nat.testBit_lt_two_pow (lt_of_lt_of_le hb (Nat.pow_le_pow_right (by decide) (by omega)))
    simp [h, this]

/-! ### Claims -/

/-- Claim C1: for byte inputs, `COMBINE_BYTES_16` with the most significant
argument first returns `(higher << 8) | lower`. -/
theorem claim_C1_combine_bytes_16 (higher lower : Nat)
    (hh : higher < 256) (hl : lower < 256) :
    COMBINE_BYTES_16 higher lower = (higher <<< 8) ||| lower := by
  have h16 : (256 : Nat) < 2 ^ 16 := by norm_num
  unfold COMBINE_BYTES_16
  rw [Nat.mod_eq_of_lt (lt_trans hl h16), Nat.mod_eq_of_lt (lt_trans hh h16), Nat.or_comm]

/-- Witness for C1 at the spec literal: `COMBINE_BYTES_16(0xAA, 0x55) = 0xAA55`. -/
theorem claim_C1_combine_bytes_16_witness :
    (0xAA : Nat) < 256 ∧ (0x55 : Nat) < 256 ∧ COMBINE_BYTES_16 0xAA 0x55 = 0xAA55 :=
  ⟨by decide, by decide,
    (claim_C1_combine_bytes_16 0xAA 0x55 (by decide) (by decide)).trans (by decide)⟩

/-- Claim C4: `HAS_MASK(value, 0)` is always `false`; for a nonzero mask,
`HAS_MASK(value, mask)` holds iff `(value & mask) == mask`. -/
theorem claim_C4_has_mask :
    (∀ value : Nat, HAS_MASK value 0 = false) ∧
    (∀ value mask : Nat, mask ≠ 0 → (HAS_MASK value mask = true ↔ value &&& mask = mask)) := by
  constructor
  · intro value
    simp [HAS_MASK]
  · intro value mask h
    simp [HAS_MASK, GET_MASK, h]

/-- Witness for C4 at the repo test vector `HAS_MASK(0b10111010, 0b00011000)`. -/
theorem claim_C4_has_mask_witness :
    (0b00011000 : Nat) ≠ 0 ∧ HAS_MASK 0b10111010 0b00011000 = true :=
  ⟨by decide, (claim_C4_has_mask.2 0b10111010 0b00011000 (by decide)).mpr (by decide)⟩

/-- Claim C8: `ONLY_MASK(value, mask)` holds exactly when `value = mask`;
in particular `ONLY_MASK(0, 0)` is true while supersets and subsets of the
mask are rejected. -/
theorem claim_C8_only_mask :
    (∀ value mask : Nat, ONLY_MASK value mask = true ↔ value = mask) ∧
    ONLY_MASK 0 0 = true ∧ ONLY_MASK 0b1110 0b1100 = false ∧
    ONLY_MASK 0b0100 0b1100 = false := by
  refine ⟨?_, by decide, by decide, by decide⟩
  intro value mask
  simp only [ONLY_MASK, GET_MASK, Bool.and_eq_true, beq_iff_eq]
  constructor
  · rintro ⟨h1, h2⟩
    exact h2.symm.trans h1
  · rintro rfl
    exact ⟨Nat.and_self _, Nat.and_self _⟩

/-- Witness for C8: `ONLY_MASK(0b1100, 0b1100)` is true, via the main theorem. -/
theorem claim_C8_only_mask_witness : ONLY_MASK 0b1100 0b1100 = true :=
  (claim_C8_only_mask.1 0b1100 0b1100).mpr rfl

/-- Claim C5 counterexample: `COMBINE_BYTES_16` does not truncate its byte
arguments to 8 bits.  With `lower = 0x100` the result (`0x100`) differs from
the call with arguments masked by `0xFF` (`0`). -/
theorem claim_C5_counterexample :
    ¬ COMBINE_BYTES_16 0 0x100 = COMBINE_BYTES_16 (0 &&& 0xFF) (0x100 &&& 0xFF) := by
  decide

/-- Claim C5 (amended): the combine macros truncate each argument to its low
16 bits (the `uint16_t` casts), not 8; the 8-bit truncation property only
holds when every argument is already below 256. -/
theorem claim_C5_combine_truncation :
    (∀ higher lower : Nat,
        COMBINE_BYTES_16 higher lower =
          COMBINE_BYTES_16 (higher % 2 ^ 16) (lower % 2 ^ 16)) ∧
    (∀ h hm lm l : Nat,
        COMBINE_BYTES_32 h hm lm l =
          COMBINE_BYTES_32 (h % 2 ^ 16) (hm % 2 ^ 16) (lm % 2 ^ 16) (l % 2 ^ 16)) ∧
    (∀ higher lower : Nat, higher < 256 → lower < 256 →
        COMBINE_BYTES_16 higher lower =
          COMBINE_BYTES_16 (higher &&& 0xFF) (lower &&& 0xFF)) ∧
    (∀ h hm lm l : Nat, h < 256 → hm < 256 → lm < 256 → l < 256 →
        COMBINE_BYTES_32 h hm lm l =
          COMBINE_BYTES_32 (h &&& 0xFF) (hm &&& 0xFF) (lm &&& 0xFF) (l &&& 0xFF)) := by
  have key : ∀ higher lower : Nat,
      COMBINE_BYTES_16 higher lower = COMBINE_BYTES_16 (higher % 2 ^ 16) (lower % 2 ^ 16) := by
    intro higher lower
    simp [COMBINE_BYTES_16, Nat.mod_mod]
  have byte : ∀ x : Nat, x < 256 → x &&& 0xFF = x := by
    intro x hx
    rw [and_255, Nat.mod_eq_of_lt hx]
  refine ⟨key, ?_, ?_, ?_⟩
  · intro h hm lm l
    unfold COMBINE_BYTES_32
    rw [← key, ← key]
  · intro higher lower hh hl
    rw [byte higher hh, byte lower hl]
  · intro h hm lm l h1 h2 h3 h4
    rw [byte h h1, byte hm h2, byte lm h3, byte l h4]

/-- Witness for C5 (amended) at a concrete wide input. -/
theorem claim_C5_combine_truncation_witness :
    (0x55 : Nat) < 256 ∧ (0xAA : Nat) < 256 ∧
    COMBINE_BYTES_16 0x10055 0xAA = COMBINE_BYTES_16 (0x10055 % 2 ^ 16) (0xAA % 2 ^ 16) ∧
    COMBINE_BYTES_16 0x55 0xAA = COMBINE_BYTES_16 (0x55 &&& 0xFF) (0xAA &&& 0xFF) :=
  ⟨by decide, by decide, claim_C5_combine_truncation.1 0x10055 0xAA,
    claim_C5_combine_truncation.2.2.1 0x55 0xAA (by decide) (by decide)⟩

lemma bitnot_testBit {m : Nat} (i : Nat) (hm : m < 2 ^ 32) (hi : i < 32) :
    (bitnot m).testBit i = !m.testBit i := by
  unfold bitnot
  rw [Nat.mod_eq_of_lt hm, Nat.testBit_xor, Nat.testBit_two_pow_sub_one]
  simp [hi]

lemma has_flag_eq_testBit (value flag_pos : Nat) :
    HAS_FLAG value flag_pos = value.testBit flag_pos := by
  unfold HAS_FLAG HAS_MASK GET_MASK
  rw [Nat.one_shiftLeft, Nat.and_two_pow]
  have h2 : (2 : Nat) ^ flag_pos ≠ 0 := Nat.pos_iff_ne_zero.mp (Nat.pos_pow_of_pos _ (by decide))
  cases h : value.testBit flag_pos <;> simp [h2, Ne.symm h2]

/-- Claim C7: `SET_MASKED_VALUE` replaces the bits under the mask by the
corresponding bits of the new value, leaves the bits outside the mask
untouched, and discards the new value's bits outside the mask. -/
theorem claim_C7_set_masked_value (w value mask new_value i : Nat)
    (hm : mask < 2 ^ w) (hw : w ≤ 32) (hi : i < w) :
    (SET_MASKED_VALUE w value mask new_value).testBit i =
      if mask.testBit i then new_value.testBit i else value.testBit i := by
  have hi32 : i < 32 := lt_of_lt_of_le hi hw
  have hm32 : mask < 2 ^ 32 :=
    lt_of_lt_of_le hm (Nat.pow_le_pow_right (by decide) hw)
  unfold SET_MASKED_VALUE
  rw [Nat.testBit_mod_two_pow, Nat.testBit_or, Nat.testBit_and, Nat.testBit_and,
    bitnot_testBit i hm32 hi32]
  cases h : mask.testBit i <;> simp [hi, h]

/-- Witness for C7 at the spec literal:
`SET_MASKED_VALUE(0x0F, 0b00001111, 0b01100011)` yields `0b00000011`. -/
theorem claim_C7_set_masked_value_witness :
    (0b00001111 : Nat) < 2 ^ 8 ∧ (8 : Nat) ≤ 32 ∧ (0 : Nat) < 8 ∧
    (SET_MASKED_VALUE 8 0x0F 0b00001111 0b01100011).testBit 0 = true ∧
    SET_MASKED_VALUE 8 0x0F 0b00001111 0b01100011 = 0b00000011 :=
  ⟨by decide, by decide, by decide,
    (claim_C7_set_masked_value 8 0x0F 0b00001111 0b01100011 0
        (by decide) (by decide) (by decide)).trans (by decide),
    by decide⟩

/-- Claim C9: for a flag position inside the value's bit width, `HAS_FLAG` is
true right after `SET_FLAG` and false right after `CLEAR_FLAG`. -/
theorem claim_C9_flags (w value flag_pos : Nat) (hpos : flag_pos < w) (hw : w ≤ 32) :
    HAS_FLAG (SET_FLAG w value flag_pos) flag_pos = true ∧
    HAS_FLAG (CLEAR_FLAG w value flag_pos) flag_pos = false := by
  have hpos32 : flag_pos < 32 := lt_of_lt_of_le hpos hw
  have hsh : (1 : Nat) <<< flag_pos < 2 ^ 32 := by
    rw [Nat.one_shiftLeft]
    exact Nat.pow_lt_pow_right (by decide) hpos32
  constructor
  · rw [has_flag_eq_testBit]
    unfold SET_FLAG SET_MASK
    rw [Nat.testBit_mod_two_pow, Nat.testBit_or, Nat.one_shiftLeft,
      Nat.testBit_two_pow_self]
    simp [hpos]
  · rw [has_flag_eq_testBit]
    unfold CLEAR_FLAG CLEAR_MASK
    rw [Nat.testBit_mod_two_pow, Nat.testBit_and, bitnot_testBit flag_pos hsh hpos32,
      Nat.one_shiftLeft, Nat.testBit_two_pow_self]
    simp

/-- Witness for C9 at the repo test vector (8-bit value `0b10101010`, flag 1). -/
theorem claim_C9_flags_witness :
    (1 : Nat) < 8 ∧ (8 : Nat) ≤ 32 ∧
    HAS_FLAG (SET_FLAG 8 0b10101010 1) 1 = true ∧
    HAS_FLAG (CLEAR_FLAG 8 0b10101010 1) 1 = false :=
  ⟨by decide, by decide, (claim_C9_flags 8 0b10101010 1 (by decide) (by decide)).1,
    (claim_C9_flags 8 0b10101010 1 (by decide) (by decide)).2⟩

/-! ### Array codec helpers -/

/-- In-place exchange of the bytes at two offsets, the building block of the
reversal macros. -/
def swap (l : List Nat) (i j : Nat) : List Nat :=
  (l.set i (l.getD j 0)).set j (l.getD i 0)

lemma length_swap (l : List Nat) (i j : Nat) : (swap l i j).length = l.length := by
  simp [swap]

lemma rev16_eq_swap (data : List Nat) (byte_offset : Nat) :
    REVERSE_BYTES_IN_ARRAY_16BIT data byte_offset =
      swap data (byte_offset + 0) (byte_offset + 1) := rfl

lemma rev32_eq_swap (data : List Nat) (byte_offset : Nat) :
    REVERSE_BYTES_IN_ARRAY_32BIT data byte_offset =
      swap (swap data (byte_offset + 0) (byte_offset + 3))
        (byte_offset + 1) (byte_offset + 2) := rfl

lemma getElem?_swap (l : List Nat) {i j : Nat} (n : Nat)
    (hi : i < l.length) (hj : j < l.length) (hij : i ≠ j) :
    (swap l i j)[n]? = if n = i then l[j]? else if n = j then l[i]? else l[n]? := by
  unfold swap
  by_cases h1 : n = j
  · subst h1
    rw [List.getElem?_set_self (by simpa using hj)]
    simp [Ne.symm hij, List.getD_eq_getElem?_getD, List.getElem?_eq_getElem hi]
  · rw [List.getElem?_set_ne (Ne.symm h1)]
    by_cases h2 : n = i
    · subst h2
      rw [List.getElem?_set_self hi]
      simp [List.getD_eq_getElem?_getD, List.getElem?_eq_getElem hj]
    · rw [List.getElem?_set_ne (Ne.symm h2)]
      simp [h1, h2]

lemma swap_swap (l : List Nat) {i j : Nat}
    (hi : i < l.length) (hj : j < l.length) (hij : i ≠ j) :
    swap (swap l i j) i j = l := by
  apply List.ext_getElem?
  intro n
  have hi' : i < (swap l i j).length := by rw [length_swap]; exact hi
  have hj' : j < (swap l i j).length := by rw [length_swap]; exact hj
  rw [getElem?_swap _ n hi' hj' hij, getElem?_swap _ i hi hj hij,
    getElem?_swap _ j hi hj hij, getElem?_swap _ n hi hj hij]
  split_ifs <;> simp_all

lemma getD_swap_ne (l : List Nat) {i j n : Nat} (h1 : n ≠ i) (h2 : n ≠ j) :
    (swap l i j).getD n 0 = l.getD n 0 := by
  unfold swap
  rw [getD_set_ne _ _ (Ne.symm h2), getD_set_ne _ _ (Ne.symm h1)]

lemma lt_length_swap {l : List Nat} {i j k : Nat} (h : k < l.length) :
    k < (swap l i j).length := by
  simpa [length_swap] using h

lemma getElem?_rev32 (data : List Nat) (off n : Nat) (h : off + 4 ≤ data.length) :
    (REVERSE_BYTES_IN_ARRAY_32BIT data off)[n]? =
      if n = off + 0 then data[off + 3]?
      else if n = off + 3 then data[off + 0]?
      else if n = off + 1 then data[off + 2]?
      else if n = off + 2 then data[off + 1]?
      else data[n]? := by
  rw [rev32_eq_swap]
  rw [getElem?_swap _ n (lt_length_swap (by omega)) (lt_length_swap (by omega)) (by omega)]
  rw [getElem?_swap _ (off + 2) (by omega) (by omega) (by omega),
    getElem?_swap _ (off + 1) (by omega) (by omega) (by omega),
    getElem?_swap _ n (by omega) (by omega) (by omega)]
  split_ifs <;> first | rfl | omega

/-! ### Array codec claims -/

/-- Claim C3: `SET_16_IN_ARRAY` stores the most significant byte at the lowest
offset: `(value >> 8) & 0xFF` at the offset and `value & 0xFF` right after it. -/
theorem claim_C3_set16_big_endian (data : List Nat) (v byte_offset : Nat)
    (hv : v < 2 ^ 16) (hlen : byte_offset + 2 ≤ data.length) :
    (SET_16_IN_ARRAY data v byte_offset).getD byte_offset 0 = (v >>> 8) &&& 0xFF ∧
    (SET_16_IN_ARRAY data v byte_offset).getD (byte_offset + 1) 0 = v &&& 0xFF := by
  have h0 : byte_offset + 0 < data.length := by omega
  have h1 : ∀ x : Nat, byte_offset + 1 < (data.set (byte_offset + 0) x).length := fun x => by
    simpa using (show byte_offset + 1 < data.length by omega)
  simp only [SET_16_IN_ARRAY]
  constructor
  · rw [show byte_offset = byte_offset + 0 from rfl,
      getD_set_ne _ _ (show byte_offset + 1 ≠ byte_offset + 0 by omega),
      getD_set_self_of_lt _ _ _ h0, Nat.mod_eq_of_lt hv]
  · rw [getD_set_self_of_lt _ _ _ (h1 _), Nat.shiftRight_zero, Nat.mod_eq_of_lt hv]

/-- Witness for C3 at the spec literal: writing `0x1234` at offset 0 of a
2-byte buffer yields the bytes `[0x12, 0x34]`. -/
theorem claim_C3_set16_big_endian_witness :
    (0x1234 : Nat) < 2 ^ 16 ∧
    (SET_16_IN_ARRAY [0, 0] 0x1234 0).getD 0 0 = 0x12 ∧
    (SET_16_IN_ARRAY [0, 0] 0x1234 0).getD 1 0 = 0x34 ∧
    SET_16_IN_ARRAY [0, 0] 0x1234 0 = [0x12, 0x34] :=
  ⟨by decide,
    ((claim_C3_set16_big_endian [0, 0] 0x1234 0 (by decide) (by decide)).1).trans (by decide),
    ((claim_C3_set16_big_endian [0, 0] 0x1234 0 (by decide) (by decide)).2).trans (by decide),
    by decide⟩

/-- Claim C2: reading a word back at the offset it was just written to
returns exactly the written value, both for 16-bit and 32-bit words. -/
theorem claim_C2_get_after_set :
    (∀ (data : List Nat) (v byte_offset : Nat), v < 2 ^ 16 →
        byte_offset + 2 ≤ data.length →
        GET_16_IN_ARRAY (SET_16_IN_ARRAY data v byte_offset) byte_offset = v) ∧
    (∀ (data : List Nat) (v byte_offset : Nat), v < 2 ^ 32 →
        byte_offset + 4 ≤ data.length →
        GET_32_IN_ARRAY (SET_32_IN_ARRAY data v byte_offset) byte_offset = v) := by
  constructor
  · intro data v off hv hlen
    have h0 : off + 0 < data.length := by omega
    have h1 : ∀ x : Nat, off + 1 < (data.set (off + 0) x).length := fun x => by
      simpa using (show off + 1 < data.length by omega)
    simp only [SET_16_IN_ARRAY, GET_16_IN_ARRAY]
    rw [getD_set_ne _ _ (show off + 1 ≠ off + 0 by omega), getD_set_self_of_lt _ _ _ h0,
      getD_set_self_of_lt _ _ _ (h1 _), Nat.mod_eq_of_lt hv, Nat.shiftRight_zero,
      and_255, and_255, Nat.shiftRight_eq_div_pow, Nat.shiftLeft_zero]
    rw [Nat.mod_eq_of_lt (show v / 2 ^ 8 % 256 < 2 ^ 16 by omega),
      Nat.mod_eq_of_lt (show v % 256 < 2 ^ 16 by omega)]
    rw [shiftLeft_or_eq_add _ (show v % 256 < 2 ^ 8 by omega)]
    omega
  · intro data v off hv hlen
    have h0 : off + 0 < data.length := by omega
    simp only [SET_32_IN_ARRAY, GET_32_IN_ARRAY]
    rw [getD_set_ne _ _ (show off + 3 ≠ off + 0 by omega),
      getD_set_ne _ _ (show off + 2 ≠ off + 0 by omega),
      getD_set_ne _ _ (show off + 1 ≠ off + 0 by omega),
      getD_set_self_of_lt _ _ _ h0]
    rw [getD_set_ne _ _ (show off + 3 ≠ off + 1 by omega),
      getD_set_ne _ _ (show off + 2 ≠ off + 1 by omega),
      getD_set_self_of_lt _ _ _ (by simpa using (show off + 1 < data.length by omega))]
    rw [getD_set_ne _ _ (show off + 3 ≠ off + 2 by omega),
      getD_set_self_of_lt _ _ _ (by simpa using (show off + 2 < data.length by omega))]
    rw [getD_set_self_of_lt _ _ _ (by simpa using (show off + 3 < data.length by omega))]
    rw [Nat.mod_eq_of_lt hv, Nat.shiftRight_zero,
      and_255, and_255, and_255, and_255,
      Nat.shiftRight_eq_div_pow, Nat.shiftRight_eq_div_pow, Nat.shiftRight_eq_div_pow,
      Nat.shiftLeft_zero]
    rw [Nat.mod_eq_of_lt (show v / 2 ^ 24 % 256 < 2 ^ 32 by omega),
      Nat.mod_eq_of_lt (show v / 2 ^ 16 % 256 < 2 ^ 32 by omega),
      Nat.mod_eq_of_lt (show v / 2 ^ 8 % 256 < 2 ^ 32 by omega),
      Nat.mod_eq_of_lt (show v % 256 < 2 ^ 32 by omega)]
    rw [Nat.or_assoc, Nat.or_assoc]
    rw [shiftLeft_or_eq_add (v / 2 ^ 8 % 256) (show v % 256 < 2 ^ 8 by omega)]
    rw [shiftLeft_or_eq_add (v / 2 ^ 16 % 256)
      (show 2 ^ 8 * (v / 2 ^ 8 % 256) + v % 256 < 2 ^ 16 by omega)]
    rw [shiftLeft_or_eq_add (v / 2 ^ 24 % 256)
      (show 2 ^ 16 * (v / 2 ^ 16 % 256) + (2 ^ 8 * (v / 2 ^ 8 % 256) + v % 256) < 2 ^ 24 by
        omega)]
    omega

/-- Witness for C2 at the repo test vectors. -/
theorem claim_C2_get_after_set_witness :
    (0x1234 : Nat) < 2 ^ 16 ∧
    GET_16_IN_ARRAY (SET_16_IN_ARRAY [0xAA, 0xBB, 0xCC, 0xDD] 0x1234 1) 1 = 0x1234 ∧
    (0x12345678 : Nat) < 2 ^ 32 ∧
    GET_32_IN_ARRAY
        (SET_32_IN_ARRAY [0xAA, 0xBB, 0xCC, 0xDD, 0xEE, 0xFF, 0x11, 0x22] 0x12345678 3) 3 =
      0x12345678 :=
  ⟨by decide,
    claim_C2_get_after_set.1 [0xAA, 0xBB, 0xCC, 0xDD] 0x1234 1 (by decide) (by decide),
    by decide,
    claim_C2_get_after_set.2 [0xAA, 0xBB, 0xCC, 0xDD, 0xEE, 0xFF, 0x11, 0x22] 0x12345678 3
      (by decide) (by decide)⟩

/-- Claim C6: applying a byte-reversal helper twice at the same valid offset
restores the buffer (both reversal helpers are involutions). -/
theorem claim_C6_reverse_involution :
    (∀ (data : List Nat) (byte_offset : Nat), byte_offset + 2 ≤ data.length →
        REVERSE_BYTES_IN_ARRAY_16BIT (REVERSE_BYTES_IN_ARRAY_16BIT data byte_offset)
          byte_offset = data) ∧
    (∀ (data : List Nat) (byte_offset : Nat), byte_offset + 4 ≤ data.length →
        REVERSE_BYTES_IN_ARRAY_32BIT (REVERSE_BYTES_IN_ARRAY_32BIT data byte_offset)
          byte_offset = data) := by
  constructor
  · intro data off h
    rw [rev16_eq_swap, rev16_eq_swap]
    exact swap_swap data (by omega) (by omega) (by omega)
  · intro data off h
    apply List.ext_getElem?
    intro n
    have hM : off + 4 ≤ (REVERSE_BYTES_IN_ARRAY_32BIT data off).length := by
      rw [rev32_eq_swap]
      simpa [length_swap] using h
    rw [getElem?_rev32 _ _ n hM, getElem?_rev32 data off (off + 3) h,
      getElem?_rev32 data off (off + 0) h, getElem?_rev32 data off (off + 2) h,
      getElem?_rev32 data off (off + 1) h, getElem?_rev32 data off n h]
    split_ifs <;> first | rfl | omega | (subst_vars; rfl)

/-- Witness for C6 at a concrete 4-byte buffer. -/
theorem claim_C6_reverse_involution_witness :
    (0 : Nat) + 2 ≤ ([0x11, 0x22, 0x33, 0x44] : List Nat).length ∧
    REVERSE_BYTES_IN_ARRAY_16BIT (REVERSE_BYTES_IN_ARRAY_16BIT [0x11, 0x22, 0x33, 0x44] 0) 0 =
      [0x11, 0x22, 0x33, 0x44] ∧
    REVERSE_BYTES_IN_ARRAY_32BIT (REVERSE_BYTES_IN_ARRAY_32BIT [0x11, 0x22, 0x33, 0x44] 0) 0 =
      [0x11, 0x22, 0x33, 0x44] :=
  ⟨by decide,
    claim_C6_reverse_involution.1 [0x11, 0x22, 0x33, 0x44] 0 (by decide),
    claim_C6_reverse_involution.2 [0x11, 0x22, 0x33, 0x44] 0 (by decide)⟩

/-- Claim C10: the array writers only touch the bytes of their own word;
every byte at any other index keeps its previous value. -/
theorem claim_C10_frame :
    (∀ (data : List Nat) (v byte_offset i : Nat), i ≠ byte_offset → i ≠ byte_offset + 1 →
        (SET_16_IN_ARRAY data v byte_offset).getD i 0 = data.getD i 0) ∧
    (∀ (data : List Nat) (v byte_offset i : Nat), i ≠ byte_offset → i ≠ byte_offset + 1 →
        i ≠ byte_offset + 2 → i ≠ byte_offset + 3 →
        (SET_32_IN_ARRAY data v byte_offset).getD i 0 = data.getD i 0) ∧
    (∀ (data : List Nat) (byte_offset i : Nat), i ≠ byte_offset → i ≠ byte_offset + 1 →
        (REVERSE_BYTES_IN_ARRAY_16BIT data byte_offset).getD i 0 = data.getD i 0) ∧
    (∀ (data : List Nat) (byte_offset i : Nat), i ≠ byte_offset → i ≠ byte_offset + 1 →
        i ≠ byte_offset + 2 → i ≠ byte_offset + 3 →
        (REVERSE_BYTES_IN_ARRAY_32BIT data byte_offset).getD i 0 = data.getD i 0) := by
  refine ⟨?_, ?_, ?_, ?_⟩
  · intro data v off i h0 h1
    simp only [SET_16_IN_ARRAY]
    rw [getD_set_ne _ _ (by omega), getD_set_ne _ _ (by omega)]
  · intro data v off i h0 h1 h2 h3
    simp only [SET_32_IN_ARRAY]
    rw [getD_set_ne _ _ (by omega), getD_set_ne _ _ (by omega),
      getD_set_ne _ _ (by omega), getD_set_ne _ _ (by omega)]
  · intro data off i h0 h1
    rw [rev16_eq_swap, getD_swap_ne _ (by omega) (by omega)]
  · intro data off i h0 h1 h2 h3
    rw [rev32_eq_swap, getD_swap_ne _ (by omega) (by omega),
      getD_swap_ne _ (by omega) (by omega)]

/-- Witness for C10 at the repo test vector `SET_16_IN_ARRAY(data, v, 0)` on a
4-byte buffer, bytes 2 and 3 untouched. -/
theorem claim_C10_frame_witness :
    (2 : Nat) ≠ 0 ∧ (2 : Nat) ≠ 1 ∧
    (SET_16_IN_ARRAY [0x11, 0x22, 0x33, 0x44] 0xBBAA 0).getD 2 0 = 0x33 ∧
    (SET_32_IN_ARRAY [0x11, 0x22, 0x33, 0x44, 0x55] 0xBBAACCEE 0).getD 4 0 = 0x55 ∧
    (REVERSE_BYTES_IN_ARRAY_16BIT [0x11, 0x22, 0x33, 0x44] 0).getD 2 0 = 0x33 ∧
    (REVERSE_BYTES_IN_ARRAY_32BIT [0x11, 0x22, 0x33, 0x44, 0x55] 0).getD 4 0 = 0x55 :=
  ⟨by decide, by decide,
    (claim_C10_frame.1 [0x11, 0x22, 0x33, 0x44] 0xBBAA 0 2 (by decide) (by decide)).trans
      (by decide),
    (claim_C10_frame.2.1 [0x11, 0x22, 0x33, 0x44, 0x55] 0xBBAACCEE 0 4 (by decide) (by decide)
        (by decide) (by decide)).trans (by decide),
    (claim_C10_frame.2.2.1 [0x11, 0x22, 0x33, 0x44] 0 2 (by decide) (by decide)).trans
      (by decide),
    (claim_C10_frame.2.2.2 [0x11, 0x22, 0x33, 0x44, 0x55] 0 4 (by decide) (by decide)
        (by decide) (by decide)).trans (by decide)⟩

end LibOS
